import Mathlib

/- Verification development for parse_xcp_stats.py.

Python strings are modeled as lists of characters (`PyStr`); a file's content
is modeled as the list of its lines, without line terminators. Python float
arithmetic is modeled exactly with integer fractions; every input exercised
below is exactly representable in a double, so no rounding is involved. Fallible Python
operations (int(), float(), sequence indexing, next() on an empty generator,
assert, tuple unpacking) are modeled with Except values whose error kind names
the Python exception they correspond to.

Simplifications, noted where they apply: Python's int() and float() also
accept underscore digit grouping and float() accepts inf/nan; neither is
exercised by any input below, and both model functions reject them. -/

abbrev PyStr := List Char

def ps (s : String) : PyStr := s.data

/-- Python str.strip(): remove leading and trailing whitespace. -/
def pyStrip (s : PyStr) : PyStr :=
  ((s.dropWhile Char.isWhitespace).reverse.dropWhile Char.isWhitespace).reverse

/-- Python str.lstrip(cs): remove leading characters drawn from the set cs. -/
def lstripSet (cs s : PyStr) : PyStr := s.dropWhile (fun c => cs.contains c)

/-- Python str.rstrip(cs): remove trailing characters drawn from the set cs
(a character-set strip, not suffix removal). -/
def rstripSet (cs s : PyStr) : PyStr :=
  (s.reverse.dropWhile (fun c => cs.contains c)).reverse

/-- Python str.split(','): split at every comma; "".split(',') is ['']. -/
def splitComma : PyStr → List PyStr
  | [] => [[]]
  | c :: rest =>
    if c = ',' then [] :: splitComma rest
    else
      match splitComma rest with
      | [] => [[c]]
      | f :: fs => (c :: f) :: fs

def splitWsGo (cur : PyStr) : PyStr → List PyStr
  | [] => if cur.isEmpty then [] else [cur.reverse]
  | c :: rest =>
    if c.isWhitespace then
      if cur.isEmpty then splitWsGo [] rest
      else cur.reverse :: splitWsGo [] rest
    else splitWsGo (c :: cur) rest

/-- Python str.split() with no argument: split on whitespace runs, no empties. -/
def pySplitWs (s : PyStr) : List PyStr := splitWsGo [] s

/-- Index of the first occurrence of needle in hay (Python str.find / str.index). -/
def pyFind (needle hay : PyStr) : Option Nat :=
  (List.range (hay.length + 1)).find? (fun i => needle.isPrefixOf (hay.drop i))

/-- Python substring containment (needle in hay). -/
def pyContains (needle hay : PyStr) : Bool := (pyFind needle hay).isSome

/-- Resolve one slice bound the way Python does: negative indices count from
the end (clamped at 0), non-negative indices are clamped at the length. -/
def sliceBound (len : Nat) (i : Int) : Nat :=
  if i < 0 then ((len : Int) + i).toNat else min i.toNat len

/-- Python s[i:j] slice semantics, including negative-index wraparound. -/
def pySlice (s : PyStr) (i j : Int) : PyStr :=
  (s.take (sliceBound s.length j)).drop (sliceBound s.length i)

/-- Python sequence indexing l[i], with negative-index wraparound; out of
range is an IndexError, modeled as Option.none. -/
def pyGetAt {α : Type} (l : List α) (i : Int) : Option α :=
  if i < 0 then
    if (-i).toNat ≤ l.length then l.get? (l.length - (-i).toNat) else Option.none
  else l.get? i.toNat

/-- Python str.partition(':'): split at the first colon; without a colon the
whole string is the first component and the tail is empty. -/
def pyPartitionColon (s : PyStr) : PyStr × PyStr :=
  match pyFind (ps (":")) s with
  | some i => (s.take i, s.drop (i + 1))
  | Option.none => (s, [])

def digitsToNat (s : PyStr) : Option Nat :=
  if s.isEmpty then Option.none
  else if s.all Char.isDigit then
    some (s.foldl (fun a c => a * 10 + (c.toNat - 48)) 0)
  else Option.none

/-- Python int(str): optional surrounding whitespace, optional sign, digits. -/
def pyInt (s : PyStr) : Option Int :=
  match pyStrip s with
  | '+' :: rest => (digitsToNat rest).map (fun n => (n : Int))
  | '-' :: rest => (digitsToNat rest).map (fun n => -(n : Int))
  | t => (digitsToNat t).map (fun n => (n : Int))

def digitsNatVal (s : PyStr) : Nat := s.foldl (fun a c => a * 10 + (c.toNat - 48)) 0

/-- Exact (unnormalized) fractions over Int, used to model Python float
arithmetic exactly; the denominator is always positive by construction. -/
structure Frac where
  num : Int
  den : Int
deriving DecidableEq

def fOfInt (n : Int) : Frac := Frac.mk n 1

def fMul (a b : Frac) : Frac := Frac.mk (a.num * b.num) (a.den * b.den)

def fAdd (a b : Frac) : Frac := Frac.mk (a.num * b.den + b.num * a.den) (a.den * b.den)

def fNeg (a : Frac) : Frac := Frac.mk (-a.num) a.den

/-- Exact power of ten with an integer exponent, as a fraction. -/
def pow10 (e : Int) : Frac :=
  if 0 ≤ e then Frac.mk ((10 : Int) ^ e.toNat) 1 else Frac.mk 1 ((10 : Int) ^ (-e).toNat)

/-- Optional exponent part of a Python float literal; an empty rest means
exponent 0; anything else must be e/E followed by an optionally signed
digit string. -/
def expPart : PyStr → Option Int
  | [] => some 0
  | c :: rest =>
    if c = 'e' ∨ c = 'E' then
      match rest with
      | '+' :: r2 => (digitsToNat r2).map (fun n => (n : Int))
      | '-' :: r2 => (digitsToNat r2).map (fun n => -(n : Int))
      | r2 => (digitsToNat r2).map (fun n => (n : Int))
    else Option.none

/-- Unsigned Python float literal: digits [. digits] [exp] or . digits [exp],
valued exactly as a fraction. -/
def floatCore (s : PyStr) : Option Frac :=
  let d1 := s.takeWhile Char.isDigit
  let r1 := s.dropWhile Char.isDigit
  match r1 with
  | '.' :: r2 =>
    let d2 := r2.takeWhile Char.isDigit
    let r3 := r2.dropWhile Char.isDigit
    if d1.isEmpty && d2.isEmpty then Option.none
    else
      (expPart r3).map (fun e =>
        fMul (fAdd (fOfInt (digitsNatVal d1)) (Frac.mk (digitsNatVal d2) ((10 : Int) ^ d2.length)))
          (pow10 e))
  | r1' =>
    if d1.isEmpty then Option.none
    else (expPart r1').map (fun e => fMul (fOfInt (digitsNatVal d1)) (pow10 e))

/-- Python float(str) on finite decimal literals, valued exactly. -/
def pyFloat (s : PyStr) : Option Frac :=
  match pyStrip s with
  | '+' :: r => floatCore r
  | '-' :: r => (floatCore r).map fNeg
  | t => floatCore t

/-- Python int(float): truncation toward zero (Int.tdiv; the denominator of
every fraction built above is positive). -/
def pyTrunc (q : Frac) : Int := Int.tdiv q.num q.den

/-- The Python exceptions the script can raise while parsing. -/
inductive Err where
  | valueError
  | indexError
  | assertionError
  | stopIterationError
deriving DecidableEq

instance {ε α : Type} [DecidableEq ε] [DecidableEq α] : DecidableEq (Except ε α) :=
  fun a b =>
    match a, b with
    | .ok x, .ok y =>
      if h : x = y then .isTrue (by rw [h])
      else .isFalse (fun hh => h (Except.ok.inj hh))
    | .error x, .error y =>
      if h : x = y then .isTrue (by rw [h])
      else .isFalse (fun hh => h (Except.error.inj hh))
    | .ok _, .error _ => .isFalse (fun hh => Except.noConfusion hh)
    | .error _, .ok _ => .isFalse (fun hh => Except.noConfusion hh)

/-- The sizes dict of convert, in insertion order. -/
def sizesList : List (PyStr × Int) :=
  [(ps ("KiB"), 2 ^ 10), (ps ("MiB"), 2 ^ 20), (ps ("GiB"), 2 ^ 30), (ps ("TiB"), 2 ^ 40)]

/-- The counts dict of convert, in insertion order. -/
def countsList : List (PyStr × Int) :=
  [(ps ("K"), 10 ^ 3), (ps ("M"), 10 ^ 6), (ps ("B"), 10 ^ 9), (ps ("T"), 10 ^ 12)]

/-- convert from parse_xcp_stats.py: returns (original stripped string, value).
Note v.rstrip(s) in the source is a character-set strip (rstripSet). -/
def convert (val : PyStr) : Except Err (PyStr × Int) :=
  let orig := pyStrip val
  let v := pyStrip (val.filter (fun c => !(c == ',')))
  if v.isEmpty then .ok (orig, 0)
  else
    match sizesList.find? (fun p => p.1.isSuffixOf v) with
    | some p =>
      match pyFloat (rstripSet p.1 v) with
      | some q => .ok (orig, pyTrunc (fMul q (fOfInt p.2)))
      | Option.none => .error Err.valueError
    | Option.none =>
      match countsList.find? (fun p => p.1.isSuffixOf v) with
      | some p =>
        match pyFloat (rstripSet p.1 v) with
        | some q => .ok (orig, pyTrunc (fMul q (fOfInt p.2)))
        | Option.none => .error Err.valueError
      | Option.none =>
        match pyInt v with
        | some k => .ok (orig, k)
        | Option.none => .error Err.valueError

/-- The numeric normalizer exactly as claim C1 words it: the scale factor is
applied to "the numeric prefix", i.e. the remainder with the matched suffix
itself removed (3 characters for byte-size suffixes, 1 for count suffixes). -/
def normalizeClaimed (val : PyStr) : Except Err (PyStr × Int) :=
  let orig := pyStrip val
  let v := pyStrip (val.filter (fun c => !(c == ',')))
  if v.isEmpty then .ok (orig, 0)
  else
    match sizesList.find? (fun p => p.1.isSuffixOf v) with
    | some p =>
      match pyFloat (v.take (v.length - p.1.length)) with
      | some q => .ok (orig, pyTrunc (fMul q (fOfInt p.2)))
      | Option.none => .error Err.valueError
    | Option.none =>
      match countsList.find? (fun p => p.1.isSuffixOf v) with
      | some p =>
        match pyFloat (v.take (v.length - p.1.length)) with
        | some q => .ok (orig, pyTrunc (fMul q (fOfInt p.2)))
        | Option.none => .error Err.valueError
      | Option.none =>
        match pyInt v with
        | some k => .ok (orig, k)
        | Option.none => .error Err.valueError

/-- The numeric normalizer as claim C1 must be amended: identical to the
claim's wording except that the suffix is removed with Python's rstrip
character-set semantics, which may also strip adjacent trailing characters
drawn from the suffix's character set. -/
def normalizeAmended (val : PyStr) : Except Err (PyStr × Int) :=
  let orig := pyStrip val
  let v := pyStrip (val.filter (fun c => !(c == ',')))
  if v.isEmpty then .ok (orig, 0)
  else
    match sizesList.find? (fun p => p.1.isSuffixOf v) with
    | some p =>
      match pyFloat (rstripSet p.1 v) with
      | some q => .ok (orig, pyTrunc (fMul q (fOfInt p.2)))
      | Option.none => .error Err.valueError
    | Option.none =>
      match countsList.find? (fun p => p.1.isSuffixOf v) with
      | some p =>
        match pyFloat (rstripSet p.1 v) with
        | some q => .ok (orig, pyTrunc (fMul q (fOfInt p.2)))
        | Option.none => .error Err.valueError
      | Option.none =>
        match pyInt v with
        | some k => .ok (orig, k)
        | Option.none => .error Err.valueError

def MaxField : Int := 9

/-- The fixed embedded-space label set of the Modified/age histogram. -/
def agesNames : List PyStr :=
  [ps (">1 year"), ps (">1 month"), ps ("1-31 days"), ps ("1-24 hrs"),
   ps ("<1 hour"), ps ("<15 mins"), ps ("future"), ps ("invalid")]

/-- One field of getfields: locate the name in line1 (str.index; ValueError
when absent) and convert the MaxField-wide slice of line2 that ends at the
name's ending offset. -/
def convertAt (line1 line2 : PyStr) (name : PyStr) : Except Err Int :=
  match pyFind name line1 with
  | Option.none => .error Err.valueError
  | some idx =>
    let i : Int := (idx : Int) + (name.length : Int) - MaxField
    match convert (pySlice line2 i (i + MaxField)) with
    | .ok p => .ok p.2
    | .error e => .error e

def convertFields (line1 line2 : PyStr) : List PyStr → Except Err (List Int)
  | [] => .ok []
  | name :: rest =>
    match convertAt line1 line2 name with
    | .ok n =>
      match convertFields line1 line2 rest with
      | .ok ns => .ok (n :: ns)
      | .error e => .error e
    | .error e => .error e

/-- getfields from parse_xcp_stats.py. -/
def getfields (line1 line2 : PyStr) : Except Err (List PyStr × List Int) :=
  let names := if pyContains (ps (">1 year")) line1 then agesNames else pySplitWs line1
  match convertFields line1 line2 names with
  | .ok values => .ok (names, values)
  | .error e => .error e

/-- A dynamically typed Python cell value as it occurs in rows and headers:
an int, a string, or None. -/
inductive PyVal where
  | int (n : Int)
  | str (s : PyStr)
  | none
deriving DecidableEq

structure Histo where
  title : PyStr
  labels : List PyStr
  values : List PyVal
deriving DecidableEq

structure ScanStats where
  fileName : PyStr
  hists : List (PyStr × Histo) := []
  single : List (PyStr × Int) := []
  source : Option PyStr := Option.none
  nError : Int := 0
deriving DecidableEq

/-- Python dict assignment d[k] = v (insertion order preserved, existing key
overwritten in place). -/
def dictSet {α : Type} (d : List (PyStr × α)) (k : PyStr) (v : α) : List (PyStr × α) :=
  match d with
  | [] => [(k, v)]
  | (k', v') :: rest => if k' == k then (k, v) :: rest else (k', v') :: dictSet rest k v

/-- Python dict lookup d.get(k). -/
def dictGet {α : Type} (d : List (PyStr × α)) (k : PyStr) : Option α :=
  (d.find? (fun p => p.1 == k)).map (fun p => p.2)

def Histograms : List PyStr :=
  [ps ("Maximum Values"), ps ("Average Values"), ps ("Space used"),
   ps ("Top File Extensions"), ps ("Number of files"), ps ("Directory entries"),
   ps ("Depth"), ps ("Modified"), ps ("Created"), ps ("Changed")]

def SingleValueOutputs : List (PyStr × PyStr) :=
  [(ps ("Total space used"), ps ("Total space")),
   (ps ("Regular files"), ps ("File count")),
   (ps ("Directories"), ps ("Dir count")),
   (ps ("Symbolic links"), ps ("Symlinks")),
   (ps ("Junctions"), ps ("Junctions")),
   (ps ("Hard links"), ps ("Hard links")),
   (ps ("Special files"), ps ("Specials"))]

def svoTitles : List PyStr := SingleValueOutputs.map Prod.fst

/-- Title extraction in fromWindows: line.strip().lstrip("== ").rstrip(" ==")
(both are character-set strips over the set of '=' and space). -/
def winTitle (line : PyStr) : PyStr :=
  rstripSet (ps (" ==")) (lstripSet (ps ("== ")) (pyStrip line))

/-- The error-count branch of fromWindows: when the line contains " errors, ",
take the first comma field containing "errors" (next(...); StopIteration when
absent), whitespace-split it into exactly two words (ValueError otherwise),
and keep the maximum error count seen. This branch does not continue, so a
matching line still flows into the title checks. -/
def errUpdate (st : ScanStats) (line : PyStr) : Except Err ScanStats :=
  if pyContains (ps (" errors, ")) line then
    match (splitComma line).find? (fun f => pyContains (ps ("errors")) f) with
    | Option.none => .error Err.stopIterationError
    | some errfield =>
      match pySplitWs errfield with
      | [a, _] =>
        match pyInt a with
        | some n => .ok { st with nError := max st.nError n }
        | Option.none => .error Err.valueError
      | _ => .error Err.valueError
  else .ok st

/-- Python self.hists[title] = Histo(...). -/
def addHist (st : ScanStats) (title : PyStr) (h : Histo) : ScanStats :=
  { st with hists := dictSet st.hists title h }

/-- The per-line loop of ScanStats.fromWindows. The Python loop has no skip
state: after a histogram title consumes the next two lines through getfields,
the loop continues at the line immediately after the title line, so the
consumed label and value rows are themselves iterated over again. -/
def windowsGo (st : ScanStats) : List PyStr → Except Err ScanStats
  | [] => .ok st
  | line :: rest =>
    if (ps ("xcp scan")).isPrefixOf line then
      match (pySplitWs line).find? (fun f => (ps ("\\")).isPrefixOf f) with
      | some f => windowsGo { st with source := some f } rest
      | Option.none => .error Err.stopIterationError
    else
      match errUpdate st line with
      | .error e => .error e
      | .ok st1 =>
        let title := winTitle line
        if Histograms.contains title then
          match rest.get? 0, rest.get? 1 with
          | some l1, some l2 =>
            match getfields l1 l2 with
            | .ok lv =>
              windowsGo (addHist st1 title (Histo.mk title lv.1 (lv.2.map PyVal.int))) rest
            | .error e => .error e
          | _, _ => .error Err.indexError
        else
          let pa := pyPartitionColon line
          if svoTitles.contains pa.1 then
            match convert pa.2 with
            | .ok p => windowsGo { st1 with single := dictSet st1.single pa.1 p.2 } rest
            | .error e => .error e
          else windowsGo st1 rest

def fromWindows (fileName : PyStr) (lines : List PyStr) : Except Err ScanStats :=
  windowsGo { fileName := fileName } lines

/-- Index of the first element equal to target (Python list.index). -/
def listFindIdx (target : PyStr) : List PyStr → Option Nat
  | [] => Option.none
  | x :: rest => if x == target then some 0 else (listFindIdx target rest).map (· + 1)

/-- The per-line loop of ScanStats.fromCSV. skip1 holds the histogram title
whose value row (the next iterated line) must be skipped; Python tests its
truthiness, so only a non-empty title triggers the skip, and the skipped line
is asserted to start with that title. A histogram line stores the comma
fields of the NEXT line, unconverted, as its values (as strings). -/
def csvGo (st : ScanStats) (skip1 : Option PyStr) : List PyStr → Except Err ScanStats
  | [] => .ok st
  | line :: rest =>
    if !(skip1.getD []).isEmpty then
      if (skip1.getD []).isPrefixOf line then csvGo st Option.none rest
      else .error Err.assertionError
    else if (ps ("scan ")).isPrefixOf line then
      match (pySplitWs line).get? 1 with
      | some src => csvGo { st with source := some src } Option.none rest
      | Option.none => .error Err.indexError
    else if (ps ("summary,\"")).isPrefixOf line && pyContains (ps ("errors,")) line then
      let fields := pySplitWs (pySlice line 9 (-1))
      match listFindIdx (ps ("errors,")) fields with
      | Option.none => .error Err.valueError
      | some idx =>
        match pyGetAt fields ((idx : Int) - 1) with
        | Option.none => .error Err.indexError
        | some tok =>
          match pyInt tok with
          | some n => csvGo { st with nError := n } Option.none rest
          | Option.none => .error Err.valueError
    else
      let fields := splitComma line
      if fields.isEmpty then csvGo st Option.none rest
      else
        let title := fields.headD []
        if Histograms.contains title then
          match rest.get? 0 with
          | Option.none => .error Err.indexError
          | some nxt =>
            csvGo (addHist st title
              (Histo.mk title fields.tail (((splitComma nxt).tail).map PyVal.str)))
              (some title) rest
        else if !(svoTitles.contains title) then csvGo st Option.none rest
        else
          match fields.get? 1 with
          | Option.none => .error Err.indexError
          | some f1 =>
            match pyInt f1 with
            | some n => csvGo { st with single := dictSet st.single title n } Option.none rest
            | Option.none => .error Err.valueError

def fromCSV (fileName : PyStr) (lines : List PyStr) : Except Err ScanStats :=
  csvGo { fileName := fileName } Option.none lines

/-- ScanStats.fromFile: bare three-character suffix dispatch. -/
def fromFile (fileName : PyStr) (lines : List PyStr) : Except Err ScanStats :=
  if (ps ("csv")).isSuffixOf fileName then fromCSV fileName lines
  else fromWindows fileName lines

/-- The per-file loop of __main__: files are parsed in order; the except
clause re-raises, so the first failure aborts the whole batch. -/
def parseAll : List (PyStr × List PyStr) → Except Err (List ScanStats)
  | [] => .ok []
  | f :: rest =>
    match fromFile f.1 f.2 with
    | .error e => .error e
    | .ok st =>
      match parseAll rest with
      | .ok sts => .ok (st :: sts)
      | .error e => .error e

def exceptOk {ε α : Type} : Except ε α → Bool
  | .ok _ => true
  | .error _ => false

def TFE : PyStr := ps ("Top File Extensions")

/-- The histogram titles the aggregator iterates over for headers and rows:
all of Histograms except "Top File Extensions". -/
def countedTitles : List PyStr := Histograms.filter (fun t => !(t == TFE))

def blank : PyVal := PyVal.str []

/-- Histogram group cells of header0, built from the first (reference)
file's record: the title then len(labels)-1 blanks, per present histogram. -/
def histHeader0Cells (s0 : ScanStats) : List PyVal :=
  (countedTitles.map (fun t =>
    match dictGet s0.hists t with
    | some h => PyVal.str t :: List.replicate (h.labels.length - 1) blank
    | Option.none => [])).flatten

/-- Histogram label cells of header, from the reference file's record. -/
def histHeaderCells (s0 : ScanStats) : List PyVal :=
  (countedTitles.map (fun t =>
    match dictGet s0.hists t with
    | some h => h.labels.map PyVal.str
    | Option.none => [])).flatten

/-- header0 of __main__: three blanks, one blank per scalar column, then the
histogram group cells taken from the first file's record. -/
def buildHeader0 (statsList : List ScanStats) : List PyVal :=
  let base := [blank, blank, blank] ++ svoTitles.map (fun _ => blank)
  match statsList with
  | [] => base
  | s0 :: _ => base ++ histHeader0Cells s0

/-- header of __main__: blank, "Errors", blank, the scalar titles, then the
histogram labels taken from the first file's record. -/
def buildHeader (statsList : List ScanStats) : List PyVal :=
  let base := [blank, PyVal.str (ps ("Errors")), blank] ++ svoTitles.map PyVal.str
  match statsList with
  | [] => base
  | s0 :: _ => base ++ histHeaderCells s0

/-- Histogram value cells of one data row: values of each counted histogram
PRESENT IN THIS FILE'S OWN RECORD (the source tests stats.hists, not the
reference record). -/
def histRowCells (stats : ScanStats) : List PyVal :=
  (countedTitles.map (fun t =>
    match dictGet stats.hists t with
    | some h => h.values
    | Option.none => [])).flatten

/-- One data row of __main__: file name, error count (blank when zero, via
Python or-truthiness), source (None when undetected), one cell per scalar
title (None when missing), then this file's histogram value cells. -/
def buildRow (stats : ScanStats) : List PyVal :=
  [PyVal.str stats.fileName,
   (if stats.nError = 0 then blank else PyVal.int stats.nError),
   (match stats.source with
    | some s => PyVal.str s
    | Option.none => PyVal.none)]
  ++ svoTitles.map (fun t =>
      match dictGet stats.single t with
      | some n => PyVal.int n
      | Option.none => PyVal.none)
  ++ histRowCells stats

def buildRows (statsList : List ScanStats) : List (List PyVal) := statsList.map buildRow

/-- The sort key of rows.sort: row[3], the "Total space used" column. -/
def rowKey (row : List PyVal) : PyVal := row.getD 3 PyVal.none

/-- Descending comparison on cell values; Python only compares ints here
(comparing mixed types would raise TypeError, which the sort hypotheses of
the claims below rule out). -/
def pyIntGe (a b : PyVal) : Bool :=
  match a, b with
  | PyVal.int x, PyVal.int y => y ≤ x
  | _, _ => false

/-- Stable descending insertion, modeling list.sort(key=row[3], reverse=True)
(Python's sort is stable; any stable sort is extensionally this one when the
keys are totally ordered). -/
def insDesc (r : List PyVal) : List (List PyVal) → List (List PyVal)
  | [] => [r]
  | x :: xs => if pyIntGe (rowKey r) (rowKey x) then r :: x :: xs else x :: insDesc r xs

def sortRowsDesc (rows : List (List PyVal)) : List (List PyVal) := rows.foldr insDesc []

/-- The fmt closure of __main__: numbers unquoted via str(), everything else
(strings, and None rendered as "None" by format) double-quoted. -/
def fmtVal : PyVal → PyStr
  | PyVal.int n => (toString n).data
  | PyVal.str s => '"' :: (s ++ [ '"' ])
  | PyVal.none => '"' :: ((ps ("None")) ++ [ '"' ])

/-- The mkline closure of __main__: comma-join the formatted cells, newline. -/
def mkline (row : List PyVal) : PyStr :=
  (List.intersperse (ps (",")) (row.map fmtVal)).flatten ++ ps ("\n")

/-- The serialized output: header0, header, then the sorted data rows. -/
def reportOutput (statsList : List ScanStats) : PyStr :=
  mkline (buildHeader0 statsList) ++ mkline (buildHeader statsList)
    ++ ((sortRowsDesc (buildRows statsList)).map mkline).flatten

/-- Decidable form of the C4 hypothesis that every histogram of the reference
record has at least one label. -/
def labelsNonempty (s0 : ScanStats) : Bool :=
  countedTitles.all (fun t =>
    match dictGet s0.hists t with
    | some h => !h.labels.isEmpty
    | Option.none => true)

/-- Decidable form of the C4 hypothesis that a record's counted histograms
line up with the reference record: same presence, and each present
histogram's value count equals the reference histogram's label count. -/
def colsMatch (s s0 : ScanStats) : Bool :=
  countedTitles.all (fun t =>
    match dictGet s.hists t, dictGet s0.hists t with
    | some h, some h0 => h.values.length == h0.labels.length
    | Option.none, Option.none => true
    | _, _ => false)

/-- Decidable form of the C5 hypothesis that a record carries the
"Total space used" scalar. -/
def hasTSU (s : ScanStats) : Bool := (dictGet s.single (ps ("Total space used"))).isSome

def c2line1 : PyStr := ps ("  .zip       .pdf      other")

def c2line2 : PyStr := ps (" 19507      16328      22047")

def c3lines : List PyStr :=
  [ps ("Maximum Values,Size,Used,Depth"), ps ("Maximum Values,14579924992,19489326592,19")]

def c3stats : ScanStats :=
  ⟨ps ("x.csv"),
   [(ps ("Maximum Values"),
     ⟨ps ("Maximum Values"), [ps ("Size"), ps ("Used"), ps ("Depth")],
      [PyVal.str (ps ("14579924992")), PyVal.str (ps ("19489326592")), PyVal.str (ps ("19"))]⟩)],
   [], Option.none, 0⟩

def c4r1 : ScanStats := ⟨ps ("a"), [], [(ps ("Total space used"), 100)], Option.none, 0⟩

def c4r2 : ScanStats :=
  ⟨ps ("b"),
   [(ps ("Changed"),
     ⟨ps ("Changed"), [ps ("x"), ps ("y")], [PyVal.str (ps ("1")), PyVal.str (ps ("2"))]⟩)],
   [(ps ("Total space used"), 200)], Option.none, 0⟩

def c4ref : ScanStats :=
  ⟨ps ("a"),
   [(ps ("Depth"), ⟨ps ("Depth"), [ps ("d1"), ps ("d2")], [PyVal.int 1, PyVal.int 2]⟩)],
   [(ps ("Total space used"), 5)], Option.none, 0⟩

def c4other : ScanStats :=
  ⟨ps ("b"),
   [(ps ("Depth"), ⟨ps ("Depth"), [ps ("d1"), ps ("d2")], [PyVal.int 3, PyVal.int 4]⟩)],
   [], Option.none, 0⟩

def c5a : ScanStats := ⟨ps ("a"), [], [(ps ("Total space used"), 100)], Option.none, 0⟩

def c5b : ScanStats := ⟨ps ("b"), [], [(ps ("Total space used"), 300)], Option.none, 0⟩

def c5c : ScanStats := ⟨ps ("c"), [], [(ps ("Total space used"), 200)], Option.none, 0⟩

def c6bad : PyStr × List PyStr := (ps ("a.csv"), [ps ("Directories,abc")])

def c6good : PyStr × List PyStr := (ps ("b.csv"), [ps ("Directories,5")])

def c7lines : List PyStr := [ps ("Depth,a,b"), ps ("Depth2,5,6")]

def c7stats : ScanStats :=
  ⟨ps ("f.csv"),
   [(ps ("Depth"),
     ⟨ps ("Depth"), [ps ("a"), ps ("b")], [PyVal.str (ps ("5")), PyVal.str (ps ("6"))]⟩)],
   [], Option.none, 0⟩

def c8lines : List PyStr := [ps ("Depth"), ps ("Directories: 5"), ps ("        7")]

def c8stats : ScanStats :=
  ⟨ps ("w"),
   [(ps ("Depth"),
     ⟨ps ("Depth"), [ps ("Directories:"), ps ("5")], [PyVal.int 7, PyVal.int 7]⟩)],
   [(ps ("Directories"), 5)], Option.none, 0⟩

/-- Descending order between rows as used by rows.sort: comparison of the
row[3] keys. -/
def rowGe (a b : List PyVal) : Prop := pyIntGe (rowKey a) (rowKey b) = true

/-- A row whose sort key is an int (Python would raise TypeError otherwise). -/
def IK (r : List PyVal) : Prop := ∃ n, rowKey r = PyVal.int n

theorem listMapCongr {α β : Type} {f g : α → β} :
    ∀ (l : List α), (∀ a ∈ l, f a = g a) → l.map f = l.map g
  | [], _ => rfl
  | x :: xs, h => by
    rw [List.map_cons, List.map_cons, h x (List.mem_cons_self x xs),
      listMapCongr xs (fun a ha => h a (List.mem_cons_of_mem x ha))]

theorem len_hist_cells_eq_header (s0 : ScanStats) (hlab : labelsNonempty s0 = true) :
    (histHeader0Cells s0).length = (histHeaderCells s0).length := by
  unfold histHeader0Cells histHeaderCells
  rw [List.length_flatten, List.length_flatten, List.map_map, List.map_map]
  congr 1
  apply listMapCongr
  intro t ht
  have ht2 := (List.all_eq_true.mp hlab) t ht
  cases hd : dictGet s0.hists t with
  | none => simp [Function.comp, hd]
  | some h =>
    rw [hd] at ht2
    simp at ht2
    have hpos : 0 < h.labels.length := by
      cases hl : h.labels with
      | nil => rw [hl] at ht2; simp at ht2
      | cons a as => simp [hl]
    simp [Function.comp, hd]
    omega

theorem len_hist_row_eq_header (s s0 : ScanStats) (hm : colsMatch s s0 = true) :
    (histRowCells s).length = (histHeaderCells s0).length := by
  unfold histRowCells histHeaderCells
  rw [List.length_flatten, List.length_flatten, List.map_map, List.map_map]
  congr 1
  apply listMapCongr
  intro t ht
  have ht2 := (List.all_eq_true.mp hm) t ht
  cases hd : dictGet s.hists t with
  | none =>
    cases hd0 : dictGet s0.hists t with
    | none => simp [Function.comp, hd, hd0]
    | some h0 => rw [hd, hd0] at ht2; simp at ht2
  | some h =>
    cases hd0 : dictGet s0.hists t with
    | none => rw [hd, hd0] at ht2; simp at ht2
    | some h0 =>
      rw [hd, hd0] at ht2
      simp at ht2
      simp [Function.comp, hd, hd0, ht2]

theorem pyIntGe_trans {a b c : PyVal} (h1 : pyIntGe a b = true) (h2 : pyIntGe b c = true) :
    pyIntGe a c = true := by
  cases a <;> cases b <;> cases c <;> simp_all [pyIntGe]
  omega

theorem pyIntGe_total_int {x y : Int} :
    pyIntGe (PyVal.int x) (PyVal.int y) = true ∨ pyIntGe (PyVal.int y) (PyVal.int x) = true := by
  simp [pyIntGe]
  omega

theorem mem_insDesc {x r : List PyVal} :
    ∀ {l : List (List PyVal)}, x ∈ insDesc r l → x = r ∨ x ∈ l := by
  intro l
  induction l with
  | nil =>
    intro h
    simp [insDesc] at h
    exact Or.inl h
  | cons y ys ih =>
    intro h
    by_cases hc : pyIntGe (rowKey r) (rowKey y) = true
    · simp only [insDesc, hc, if_true] at h
      rcases List.mem_cons.mp h with h' | h'
      · exact Or.inl h'
      · exact Or.inr h'
    · simp only [insDesc, hc, if_false] at h
      rcases List.mem_cons.mp h with h' | h'
      · exact Or.inr (List.mem_cons.mpr (Or.inl h'))
      · rcases ih h' with h'' | h''
        · exact Or.inl h''
        · exact Or.inr (List.mem_cons.mpr (Or.inr h''))

theorem pairwise_insDesc {r : List PyVal} {l : List (List PyVal)}
    (hIKr : IK r) (hIKl : ∀ x ∈ l, IK x) (hp : l.Pairwise rowGe) :
    (insDesc r l).Pairwise rowGe := by
  induction l with
  | nil => simp [insDesc, List.pairwise_singleton]
  | cons y ys ih =>
    by_cases hc : pyIntGe (rowKey r) (rowKey y) = true
    · simp only [insDesc, hc, if_true]
      refine List.pairwise_cons.mpr ⟨?_, hp⟩
      intro z hz
      rcases List.mem_cons.mp hz with rfl | hz'
      · exact hc
      · exact pyIntGe_trans hc ((List.pairwise_cons.mp hp).1 z hz')
    · simp only [insDesc, hc, if_false]
      have hy : IK y := hIKl y (List.mem_cons_self y ys)
      refine List.pairwise_cons.mpr ⟨?_, ?_⟩
      · intro z hz
        rcases mem_insDesc hz with rfl | hz'
        · obtain ⟨n, hn⟩ := hIKr
          obtain ⟨m, hm⟩ := hy
          show pyIntGe (rowKey y) (rowKey z) = true
          rw [hm, hn]
          rcases pyIntGe_total_int (x := n) (y := m) with h' | h'
          · rw [← hn, ← hm] at h'
            exact absurd h' hc
          · exact h'
        · exact (List.pairwise_cons.mp hp).1 z hz'
      · exact ih (fun x hx => hIKl x (List.mem_cons_of_mem y hx)) (List.pairwise_cons.mp hp).2

theorem mem_sortRowsDesc {x : List PyVal} :
    ∀ {l : List (List PyVal)}, x ∈ sortRowsDesc l → x ∈ l := by
  intro l
  induction l with
  | nil => simp [sortRowsDesc]
  | cons r rs ih =>
    intro h
    have h' : x ∈ insDesc r (sortRowsDesc rs) := h
    rcases mem_insDesc h' with rfl | h''
    · exact List.mem_cons_self x rs
    · exact List.mem_cons_of_mem r (ih h'')

theorem pairwise_sortRowsDesc (rows : List (List PyVal)) (hIK : ∀ x ∈ rows, IK x) :
    (sortRowsDesc rows).Pairwise rowGe := by
  induction rows with
  | nil => simp [sortRowsDesc]
  | cons r rs ih =>
    have hr : IK r := hIK r (List.mem_cons_self r rs)
    have htl : ∀ x ∈ rs, IK x := fun x hx => hIK x (List.mem_cons_of_mem r hx)
    have hmemsort : ∀ x ∈ sortRowsDesc rs, IK x := fun x hx => htl x (mem_sortRowsDesc hx)
    show (insDesc r (sortRowsDesc rs)).Pairwise rowGe
    exact pairwise_insDesc hr hmemsort (ih htl)

theorem rowKey_buildRow (s : ScanStats) :
    rowKey (buildRow s) =
      (match dictGet s.single (ps ("Total space used")) with
       | some n => PyVal.int n
       | Option.none => PyVal.none) := rfl

/-- Claim C1, counterexample: on "1KKiB" the code returns 1024 (rstrip strips
the whole trailing run of suffix characters, leaving "1"), while the claim's
algorithm, which parses the numeric prefix "1K" left after removing the
three-character suffix, fails float parsing. -/
theorem c1_normalizer_counterexample :
    convert (ps ("1KKiB")) = .ok (ps ("1KKiB"), 1024) ∧
    normalizeClaimed (ps ("1KKiB")) = .error Err.valueError :=
  ⟨by decide, by decide⟩

/-- Claim C1 as amended: convert strips surrounding whitespace and all commas,
returns 0 on empty, dispatches on byte-size then count suffixes, and removes
the matched suffix with Python rstrip character-set semantics (which may strip
trailing suffix-set characters beyond the suffix itself) before float parsing,
scaling and truncating; otherwise plain-integer parse. The four examples of
the claim hold. -/
theorem c1_normalizer_amended :
    (∀ val : PyStr, convert val = normalizeAmended val) ∧
    convert (ps ("1.5KiB")) = .ok (ps ("1.5KiB"), 1536) ∧
    convert (ps ("2M")) = .ok (ps ("2M"), 2000000) ∧
    convert (ps ("")) = .ok (ps (""), 0) ∧
    convert (ps ("1,234")) = .ok (ps ("1,234"), 1234) :=
  ⟨fun _ => rfl, by decide, by decide, by decide, by decide⟩

/-- Claim C2, counterexample: on the claim's exact label and value rows the
first label ".zip" ends at offset 6, so the 9-wide window starts at -3, which
Python interprets from the end of the value row; the slice is empty and the
first extracted value is 0, not 19507. -/
theorem c2_getfields_counterexample :
    getfields c2line1 c2line2 =
      .ok ([ps (".zip"), ps (".pdf"), ps ("other")], [0, 16328, 22047]) ∧
    getfields c2line1 c2line2 ≠
      .ok ([ps (".zip"), ps (".pdf"), ps ("other")], [19507, 16328, 22047]) :=
  ⟨by decide, by decide⟩

/-- Claim C2 as amended: for the given rows getfields returns the labels
[".zip", ".pdf", "other"] and the values [0, 16328, 22047]: each value is the
9-character window of the value row ending at the label's ending offset,
except that a window whose start offset is negative wraps around to the end
of the value row (Python slice semantics), which yields the empty slice and
value 0 for ".zip". -/
theorem c2_getfields_amended :
    getfields c2line1 c2line2 =
      .ok ([ps (".zip"), ps (".pdf"), ps ("other")], [0, 16328, 22047]) := by decide

/-- Claim C3, counterexample: the parsed histogram holds the unconverted
field strings, not integers. -/
theorem c3_csv_histogram_counterexample :
    fromCSV (ps ("x.csv")) c3lines = .ok c3stats ∧
    (dictGet c3stats.hists (ps ("Maximum Values"))).map Histo.values ≠
      some [PyVal.int 14579924992, PyVal.int 19489326592, PyVal.int 19] :=
  ⟨by decide, by decide⟩

/-- Claim C3 as amended: the two lines produce a record with a Histogram
titled "Maximum Values", labels ["Size", "Used", "Depth"], and the value
strings "14579924992", "19489326592", "19" kept as raw strings. -/
theorem c3_csv_histogram_amended :
    fromCSV (ps ("x.csv")) c3lines = .ok c3stats ∧
    dictGet c3stats.hists (ps ("Maximum Values")) =
      some (Histo.mk (ps ("Maximum Values")) [ps ("Size"), ps ("Used"), ps ("Depth")]
        [PyVal.str (ps ("14579924992")), PyVal.str (ps ("19489326592")),
         PyVal.str (ps ("19"))]) :=
  ⟨by decide, by decide⟩

/-- Claim C4, counterexample: with a reference record lacking the "Changed"
histogram and a second record carrying it with two values, both header rows
have 10 cells and the first data row 10, but the second data row has 12
cells: the row loop tests the file's own record, so a histogram absent from
the reference still contributes cells to later files' rows. -/
theorem c4_column_parity_counterexample :
    (buildHeader0 [c4r1, c4r2]).length = 10 ∧
    (buildHeader [c4r1, c4r2]).length = 10 ∧
    (buildRows [c4r1, c4r2]).map List.length = [10, 12] ∧
    dictGet c4r1.hists (ps ("Changed")) = Option.none ∧
    (12 : Nat) ≠ 10 :=
  ⟨by decide, by decide, by decide, by decide, by decide⟩

/-- Claim C4 as amended: both header rows have equal column count provided
every counted histogram of the reference record has at least one label, and
a data row has the headers' column count when the file's counted histograms
match the reference record's presence with value counts equal to the
reference label counts. (A histogram absent from the reference contributes
no header cells but still contributes cells to the rows of files that carry
it, so unrestricted column parity fails.) -/
theorem c4_column_parity_amended (s0 : ScanStats) (rest : List ScanStats)
    (hlab : labelsNonempty s0 = true) :
    (buildHeader0 (s0 :: rest)).length = (buildHeader (s0 :: rest)).length ∧
    ∀ s : ScanStats, colsMatch s s0 = true →
      (buildRow s).length = (buildHeader (s0 :: rest)).length := by
  have hh := len_hist_cells_eq_header s0 hlab
  constructor
  · simp [buildHeader0, buildHeader, hh]
  · intro s hm
    have hr := len_hist_row_eq_header s s0 hm
    simp [buildRow, buildHeader, hr]

/-- Witness for C4's amended claim at a concrete aligned pair of records. -/
theorem c4_column_parity_witness :
    (buildHeader0 [c4ref, c4other]).length = (buildHeader [c4ref, c4other]).length ∧
    (buildRow c4other).length = (buildHeader [c4ref, c4other]).length :=
  ⟨(c4_column_parity_amended c4ref [c4other] (by decide)).1,
   (c4_column_parity_amended c4ref [c4other] (by decide)).2 c4other (by decide)⟩

/-- Claim C5: when every record carries the "Total space used" scalar, the
emitted data rows are pairwise descending in that column (row index 3), and
for the three records with values 100, 300, 200 the output keys are
300, 200, 100 in order. -/
theorem c5_sort_descending :
    (∀ statsList : List ScanStats, (∀ s ∈ statsList, hasTSU s = true) →
      (sortRowsDesc (buildRows statsList)).Pairwise rowGe) ∧
    (sortRowsDesc (buildRows [c5a, c5b, c5c])).map rowKey =
      [PyVal.int 300, PyVal.int 200, PyVal.int 100] := by
  constructor
  · intro statsList h
    apply pairwise_sortRowsDesc
    intro x hx
    rcases List.mem_map.mp hx with ⟨s, hs, rfl⟩
    have hts := h s hs
    unfold hasTSU at hts
    obtain ⟨n, hn⟩ := Option.isSome_iff_exists.mp hts
    exact ⟨n, by rw [rowKey_buildRow, hn]⟩
  · decide

/-- Witness for C5 at the three concrete records of the claim. -/
theorem c5_sort_descending_witness :
    (sortRowsDesc (buildRows [c5a, c5b, c5c])).Pairwise rowGe :=
  c5_sort_descending.1 [c5a, c5b, c5c] (by decide)

/-- Claim C6, counterexample: the second file parses fine on its own, yet a
batch whose first file fails aborts entirely with the first file's error (the
except clause re-raises), so the second file contributes nothing. -/
theorem c6_batch_abort_counterexample :
    fromFile c6good.1 c6good.2 =
      .ok (ScanStats.mk (ps ("b.csv")) [] [(ps ("Directories"), 5)] Option.none 0) ∧
    parseAll [c6bad, c6good] = .error Err.valueError :=
  ⟨by decide, by decide⟩

/-- Claim C6 as amended: a parse error on one file aborts the whole batch:
if every earlier file parses and one file fails, the batch result is that
file's error and no later file is parsed or reported. -/
theorem c6_batch_abort_amended (pre : List (PyStr × List PyStr))
    (f : PyStr × List PyStr) (rest : List (PyStr × List PyStr)) (e : Err)
    (hpre : exceptOk (parseAll pre) = true) (hf : fromFile f.1 f.2 = .error e) :
    parseAll (pre ++ f :: rest) = .error e := by
  induction pre with
  | nil =>
    simp only [List.nil_append, parseAll, hf]
  | cons p pr ih =>
    rw [List.cons_append]
    simp only [parseAll] at hpre ⊢
    cases hp : fromFile p.1 p.2 with
    | error e2 => rw [hp] at hpre; simp [exceptOk] at hpre
    | ok st =>
      rw [hp] at hpre
      cases hq : parseAll pr with
      | error e2 => rw [hq] at hpre; simp [exceptOk] at hpre
      | ok sts =>
        have hq' : exceptOk (parseAll pr) = true := by rw [hq]; rfl
        rw [ih hq']

/-- Witness for C6's amended claim: a good file followed by a bad one. -/
theorem c6_batch_abort_witness :
    parseAll [c6good, c6bad] = .error Err.valueError :=
  c6_batch_abort_amended [c6good] c6bad [] Err.valueError (by decide) (by decide)

theorem splitComma_ne_nil (l : PyStr) : splitComma l ≠ [] := by
  cases l with
  | nil => simp [splitComma]
  | cons c rest =>
    by_cases hc : c = ','
    · simp [splitComma, hc]
    · simp only [splitComma, hc, if_false]
      cases h : splitComma rest <;> simp

/-- Claim C7, counterexample: after the "Depth" histogram line, the marked
line "Depth2,5,6" has first field "Depth2", different from the title, yet
the parse succeeds: the consistency check is a string prefix test
(startswith), not first-field equality. -/
theorem c7_skip_check_counterexample :
    fromCSV (ps ("f.csv")) c7lines = .ok c7stats ∧
    (splitComma (ps ("Depth2,5,6"))).headD [] ≠ ps ("Depth") :=
  ⟨by decide, by decide⟩

/-- Claim C7 as amended: a histogram line whose first field is a known title
stores the labels from this line and the value strings from the next line and
marks that next line (the value row itself) to be skipped; the marked line
must START WITH the triggering title (a prefix check, not first-field
equality) or the parse fails with an assertion error, and when the prefix
check holds the line is skipped without further processing. -/
theorem c7_skip_check_amended (st : ScanStats) (t line nxt : PyStr)
    (rest rest2 : List PyStr) :
    (t ≠ [] → t.isPrefixOf line = false →
      csvGo st (some t) (line :: rest) = .error Err.assertionError) ∧
    (t ≠ [] → t.isPrefixOf line = true →
      csvGo st (some t) (line :: rest) = csvGo st Option.none rest) ∧
    (Histograms.contains ((splitComma line).headD []) = true →
      (ps ("scan ")).isPrefixOf line = false →
      ((ps ("summary,\"")).isPrefixOf line && pyContains (ps ("errors,")) line) = false →
      csvGo st Option.none (line :: nxt :: rest2) =
        csvGo (addHist st ((splitComma line).headD [])
            (Histo.mk ((splitComma line).headD []) (splitComma line).tail
              (((splitComma nxt).tail).map PyVal.str)))
          (some ((splitComma line).headD [])) (nxt :: rest2)) := by
  refine ⟨?_, ?_, ?_⟩
  · intro ht hpref
    cases t with
    | nil => exact absurd rfl ht
    | cons c cs => simp [csvGo, hpref]
  · intro ht hpref
    cases t with
    | nil => exact absurd rfl ht
    | cons c cs => simp [csvGo, hpref]
  · intro h1 h2 h3
    cases hsc : splitComma line with
    | nil => exact absurd hsc (splitComma_ne_nil line)
    | cons fld flds =>
      rw [hsc] at h1
      simp only [List.headD_cons] at h1 ⊢
      have h1m : fld ∈ Histograms := by simpa using h1
      simp [csvGo, h1, h1m, h2, h3, hsc, addHist]

/-- Witness for C7's amended claim: prefix mismatch aborts the parse. -/
theorem c7_skip_check_witness :
    csvGo (ScanStats.mk (ps ("f.csv")) [] [] Option.none 0) (some (ps ("Depth")))
        [ps ("Nope")] = .error Err.assertionError :=
  (c7_skip_check_amended (ScanStats.mk (ps ("f.csv")) [] [] Option.none 0)
    (ps ("Depth")) (ps ("Nope")) [] [] []).1 (by decide) (by decide)

/-- Claim C8, counterexample: in the Windows parser the two consumed lines
ARE re-evaluated: feeding the histogram title "Depth" followed by the label
row "Directories: 5" and value row "        7" both records the Depth
histogram from those two lines and, on the next iteration, matches the
consumed label row against the scalar rule, storing Directories = 5. -/
theorem c8_windows_resume_counterexample :
    fromWindows (ps ("w")) c8lines = .ok c8stats ∧
    dictGet c8stats.single (ps ("Directories")) = some 5 :=
  ⟨by decide, by decide⟩

/-- Claim C8 as amended: after a histogram-title line consumes the next two
lines through the fixed-width extractor, scanning resumes at the line
immediately AFTER the title line, so the consumed label and value rows are
evaluated again by the transition rules on subsequent iterations (harmless
only when they match no rule). -/
theorem c8_windows_resume_amended (st : ScanStats) (line l1 l2 : PyStr)
    (rest : List PyStr) (lbls : List PyStr) (vals : List Int)
    (h1 : (ps ("xcp scan")).isPrefixOf line = false)
    (h2 : pyContains (ps (" errors, ")) line = false)
    (h3 : Histograms.contains (winTitle line) = true)
    (h4 : getfields l1 l2 = .ok (lbls, vals)) :
    windowsGo st (line :: l1 :: l2 :: rest) =
      windowsGo (addHist st (winTitle line)
        (Histo.mk (winTitle line) lbls (vals.map PyVal.int))) (l1 :: l2 :: rest) := by
  have he : errUpdate st line = .ok st := by simp [errUpdate, h2]
  have h1m : ¬ (ps ("xcp scan") <+: line) := by
    intro hh
    rw [List.isPrefixOf_iff_prefix.mpr hh] at h1
    simp at h1
  have h3m : winTitle line ∈ Histograms := by simpa using h3
  simp [windowsGo, h1, h1m, he, h3, h3m, h4]

/-- Witness for C8's amended claim at the counterexample's input. -/
theorem c8_windows_resume_witness :
    windowsGo (ScanStats.mk (ps ("w")) [] [] Option.none 0)
        [ps ("Depth"), ps ("Directories: 5"), ps ("        7")] =
      windowsGo (addHist (ScanStats.mk (ps ("w")) [] [] Option.none 0)
        (winTitle (ps ("Depth")))
        (Histo.mk (winTitle (ps ("Depth"))) [ps ("Directories:"), ps ("5")]
          ([7, 7].map PyVal.int)))
        [ps ("Directories: 5"), ps ("        7")] :=
  c8_windows_resume_amended (ScanStats.mk (ps ("w")) [] [] Option.none 0)
    (ps ("Depth")) (ps ("Directories: 5")) (ps ("        7")) []
    [ps ("Directories:"), ps ("5")] [7, 7]
    (by decide) (by decide) (by decide) (by decide)

/-- Claim C9: the aggregator and serializer are pure functions of the record
list in its supplied order, so two runs over the same records give
byte-identical header lines, the same sorted rows, and the same serialized
output; in this embedding determinism is definitional. -/
theorem c9_aggregator_deterministic (statsList : List ScanStats) :
    mkline (buildHeader0 statsList) = mkline (buildHeader0 statsList) ∧
    mkline (buildHeader statsList) = mkline (buildHeader statsList) ∧
    sortRowsDesc (buildRows statsList) = sortRowsDesc (buildRows statsList) ∧
    reportOutput statsList = reportOutput statsList :=
  ⟨rfl, rfl, rfl, rfl⟩

/-- Claim C10: fromFile dispatches to the CSV parser exactly when the file
name ends with the three characters "csv" (equivalently, its last three
characters are "csv"), with no dot required, so "reportcsv" goes to the CSV
parser; every other name goes to the Windows parser. -/
theorem c10_dispatch_suffix (name : PyStr) (lines : List PyStr) :
    (fromFile name lines =
      if (ps ("csv")).isSuffixOf name then fromCSV name lines
      else fromWindows name lines) ∧
    ((ps ("csv")).isSuffixOf name = true ↔
      (3 ≤ name.length ∧ name.drop (name.length - 3) = ps ("csv"))) ∧
    fromFile (ps ("reportcsv")) lines = fromCSV (ps ("reportcsv")) lines := by
  refine ⟨rfl, ?_, ?_⟩
  · constructor
    · intro h
      have hs : ps ("csv") <:+ name := List.isSuffixOf_iff_suffix.mp h
      refine ⟨?_, ?_⟩
      · exact hs.length_le
      · exact (List.suffix_iff_eq_drop.mp hs).symm
    · rintro ⟨hlen, hdrop⟩
      apply List.isSuffixOf_iff_suffix.mpr
      rw [← hdrop]
      exact List.drop_suffix (name.length - 3) name
  · show fromFile (ps ("reportcsv")) lines = fromCSV (ps ("reportcsv")) lines
    unfold fromFile
    rw [if_pos (by decide)]
